import Mathlib

/-!
Verification of the Product-Processor-And-Scraper pipeline.

Shallow embedding of the repository's Python modules:
  * `src/product_processor/json_utils/loader.py`   (`load_json_files`)
  * `src/product_processor/image_utils/downloader.py` (`download_image`,
    `download_product_images`)
  * `src/product_processor/csv_utils/generator.py` (`generate_csv`)
  * `src/product_processor/scraper/scraper.py`     (`ProductScraper`)

Product records are Python dicts holding parsed JSON, modelled by the
`JValue` type below; a record is an association list with string keys whose
operations mirror Python dict semantics (assignment keeps the position of an
existing key, otherwise appends).  Network and filesystem outcomes are
supplied as oracle functions (`fetch`, `writeOk`, `net`): the code's own
control flow around those outcomes is translated statement by statement.
JSON numbers are modelled as integers (no claim involves fractional
values).
-/

/-- Parsed JSON value as Python represents it: `None`, `bool`, `int`,
`str`, `list`, `dict` (a dict is an insertion-ordered association list). -/
inductive JValue where
  | null
  | bool (b : Bool)
  | num (n : Int)
  | str (s : String)
  | arr (xs : List JValue)
  | obj (kvs : List (String × JValue))

namespace JValue

mutual

/-- Structural equality of JSON values (Python `==` on parsed JSON). -/
def beq : JValue → JValue → Bool
  | .null, .null => true
  | .bool a, .bool b => a == b
  | .num a, .num b => a == b
  | .str a, .str b => a == b
  | .arr a, .arr b => beqL a b
  | .obj a, .obj b => beqO a b
  | _, _ => false

/-- Elementwise equality of JSON lists. -/
def beqL : List JValue → List JValue → Bool
  | [], [] => true
  | x :: xs, y :: ys => beq x y && beqL xs ys
  | _, _ => false

/-- Elementwise equality of JSON objects. -/
def beqO : List (String × JValue) → List (String × JValue) → Bool
  | [], [] => true
  | (k, v) :: xs, (k', v') :: ys => k == k' && beq v v' && beqO xs ys
  | _, _ => false

end

theorem beq_eq_true_iff : ∀ a b : JValue, (beq a b = true ↔ a = b) := by
  suffices h : ∀ n : Nat,
      (∀ a b : JValue, sizeOf a ≤ n → (beq a b = true ↔ a = b)) ∧
      (∀ xs ys : List JValue, sizeOf xs ≤ n → (beqL xs ys = true ↔ xs = ys)) ∧
      (∀ xs ys : List (String × JValue), sizeOf xs ≤ n →
        (beqO xs ys = true ↔ xs = ys)) by
    intro a b
    exact (h (sizeOf a)).1 a b le_rfl
  intro n
  induction n with
  | zero =>
    refine ⟨?_, ?_, ?_⟩
    · intro a b h; cases a <;> simp at h
    · intro xs ys h; cases xs <;> simp at h
    · intro xs ys h; cases xs <;> simp at h
  | succ n ih =>
    obtain ⟨ih1, ih2, ih3⟩ := ih
    refine ⟨?_, ?_, ?_⟩
    · intro a b h
      cases a <;> cases b <;> simp only [beq] <;> try simp
      · rename_i xs ys
        simpa using ih2 xs ys (by simp at h; omega)
      · rename_i xs ys
        simpa using ih3 xs ys (by simp at h; omega)
    · intro xs ys h
      match xs, ys with
      | [], [] => simp [beqL]
      | [], _ :: _ => simp [beqL]
      | _ :: _, [] => simp [beqL]
      | x :: xs, y :: ys =>
        have h1 : sizeOf x ≤ n := by simp at h; omega
        have h2 : sizeOf xs ≤ n := by simp at h; omega
        simp [beqL, ih1 x y h1, ih2 xs ys h2]
    · intro xs ys h
      match xs, ys with
      | [], [] => simp [beqO]
      | [], _ :: _ => simp [beqO]
      | _ :: _, [] => simp [beqO]
      | (k, v) :: xs, (k', v') :: ys =>
        have h1 : sizeOf v ≤ n := by simp at h; omega
        have h2 : sizeOf xs ≤ n := by simp at h; omega
        simp [beqO, ih1 v v' h1, ih3 xs ys h2, and_assoc]

instance : DecidableEq JValue :=
  fun a b => decidable_of_iff (beq a b = true) (beq_eq_true_iff a b)

/-- Python truthiness of a parsed JSON value (`bool(v)`): `None`, `False`,
`0`, `""`, `[]` and the empty dict are falsy, everything else truthy. -/
def truthy : JValue → Bool
  | .null => false
  | .bool b => b
  | .num n => n != 0
  | .str s => !s.isEmpty
  | .arr xs => !xs.isEmpty
  | .obj kvs => !kvs.isEmpty

end JValue


/-- Lookup in a Python dict modelled as an association list
(`d.get(key)` or `key in d`): the first entry with the key, if any. -/
def getAssoc {α β : Type} [DecidableEq α] : List (α × β) → α → Option β
  | [], _ => none
  | (k, v) :: rest, key => if k = key then some v else getAssoc rest key

/-- Assignment to a Python dict key (`d[key] = v`): replaces the value of
an existing key in place (keeping its position), else appends the new
entry at the end (insertion order, as Python dicts preserve it). -/
def setAssoc {α β : Type} [DecidableEq α] : List (α × β) → α → β → List (α × β)
  | [], key, v => [(key, v)]
  | (k, v') :: rest, key, v =>
    if k = key then (key, v) :: rest else (k, v') :: setAssoc rest key v

/-- Product record: a Python dict with string keys (parsed JSON object). -/
abbrev Record := List (String × JValue)

/-! ## Image downloader (`src/product_processor/image_utils/downloader.py`) -/

/-- Python `str()` / f-string rendering of a JSON value, as used for
`f"image_{product_id}_{index}.jpg"` and friends.  Lists and dicts render
with a simplified placeholder (no claim ever renders a compound value). -/
def pyStr : JValue → String
  | .null => "None"
  | .bool true => "True"
  | .bool false => "False"
  | .num n => toString n
  | .str s => s
  | .arr _ => "<list>"
  | .obj _ => "<dict>"

/-- Observable side effects of one `download_image` call: directory
creation (`os.makedirs`), the network fetch (`requests.get`), and the
attempt to open/write the output file. -/
inductive Effect where
  | mkdirAll (dir : String)
  | netGet (url : String)
  | fileWrite (path : String)
deriving DecidableEq

/-- Suffix of a character list after the first occurrence of `pat`, if
`pat` occurs in it. -/
def subAfter (pat : List Char) : List Char → Option (List Char)
  | [] => none
  | c :: cs =>
    if pat.isPrefixOf (c :: cs) then some ((c :: cs).drop pat.length)
    else subAfter pat cs

/-- Modelled subset of `urllib.parse.urlparse(url).path`: for
`scheme://authority/path?query#fragment` the `/path` part; text without
`://` is all path (before any query or fragment). -/
def urlPath (url : String) : String :=
  let cs := (url.data.takeWhile (fun c => c != '#')).takeWhile (fun c => c != '?')
  match subAfter [':', '/', '/'] cs with
  | none => String.mk cs
  | some rest => String.mk (rest.dropWhile (fun c => c != '/'))

/-- Modelled `os.path.basename`: the final `/`-separated component. -/
def basename (path : String) : String :=
  String.mk (path.data.reverse.takeWhile (fun c => c != '/')).reverse

/-- Embedding of `download_image` (downloader.py lines 15-72).  `fetch`
tells whether `requests.get` + `raise_for_status` succeeds for a URL and
`writeOk` whether writing the output file succeeds; both failure kinds are
caught in the source and yield an empty local path.  The `url` and
`product_id` arguments carry raw JSON values, as the batch caller passes
them; a falsy url is skipped before any side effect (line 32), and a
truthy non-string url makes `urlparse` raise, which the generic handler
turns into an empty path (after `os.makedirs` already ran).  Returns the
`(url, local_path)` pair of the source together with the effect trace. -/
def download_image (fetch writeOk : String → Bool) (url : JValue)
    (outputDir : String) (productId : JValue) (index : Nat) :
    (JValue × String) × List Effect :=
  if !url.truthy then ((url, ""), [])
  else
    match url with
    | .str s =>
      let pidS := pyStr productId
      let base := basename (urlPath s)
      let fname0 := if base.data.isEmpty || !base.data.contains '.' then
          "image_" ++ pidS ++ "_" ++ toString index ++ ".jpg"
        else base
      let fname := if productId.truthy then pidS ++ "_" ++ fname0 else fname0
      let outputPath := outputDir ++ "/" ++ fname
      if fetch s then
        if writeOk outputPath then
          ((url, outputPath), [.mkdirAll outputDir, .netGet s, .fileWrite outputPath])
        else ((url, ""), [.mkdirAll outputDir, .netGet s, .fileWrite outputPath])
      else ((url, ""), [.mkdirAll outputDir, .netGet s])
    | _ => ((url, ""), [.mkdirAll outputDir])

/-- Product id used to key download results:
`product.get('product_id', 'unknown')` (downloader.py lines 95, 122). -/
def pidOf (p : Record) : JValue := (getAssoc p "product_id").getD (.str "unknown")

/-- Image URL list of a record: `product.get('image_urls', [])`.  A present
non-list value is modelled as the empty list (Python's `enumerate` would
iterate characters/keys of such a value or raise; records in this pipeline
carry lists here). -/
def urlsOf (p : Record) : List JValue :=
  match getAssoc p "image_urls" with
  | some (.arr xs) => xs
  | _ => []

/-- Download tasks of one record: `enumerate(image_urls)` as
`(product_id, index, url)` triples (downloader.py lines 98-99). -/
def enumTasks (pid : JValue) : Nat → List JValue → List (JValue × Nat × JValue)
  | _, [] => []
  | i, u :: us => (pid, i, u) :: enumTasks pid (i + 1) us

/-- All download tasks of a batch, in product order then url order
(downloader.py lines 93-99). -/
def tasks (products : List Record) : List (JValue × Nat × JValue) :=
  products.flatMap fun p => enumTasks (pidOf p) 0 (urlsOf p)

/-- Per-product download results: `results[product_id][url] = local_path`. -/
abbrev UrlMap := List (JValue × String)

/-- The shared `results` dict: product id → (url → local path). -/
abbrev ResMap := List (JValue × UrlMap)

/-- One iteration of the result-collection loop (downloader.py lines
109-118): the task's local path is recorded under `(product_id, url)` only
when it is non-empty. -/
def resStep (dl : JValue → JValue → Nat → String) (m : ResMap)
    (t : JValue × Nat × JValue) : ResMap :=
  let path := dl t.2.2 t.1 t.2.1
  if path.isEmpty then m
  else
    match getAssoc m t.1 with
    | some inner => setAssoc m t.1 (setAssoc inner t.2.2 path)
    | none => setAssoc m t.1 [(t.2.2, path)]

/-- The `results` dict after all futures are drained.  The source iterates
`future_to_url` in insertion order and each future's value is the pure
`download_image` result, so completion order does not affect the map. -/
def buildResults (dl : JValue → JValue → Nat → String)
    (ts : List (JValue × Nat × JValue)) : ResMap :=
  ts.foldl (resStep dl) []

/-- Recorded local path for a `(product_id, url)` pair, if any. -/
def resPath (m : ResMap) (pid url : JValue) : Option String :=
  match getAssoc m pid with
  | some inner => getAssoc inner url
  | none => none

/-- The per-record update loop body (downloader.py lines 121-131): only a
record whose product id appears in `results` gains `local_image_paths`,
built as `results[product_id].get(url, "")` over its `image_urls`. -/
def updateProduct (results : ResMap) (p : Record) : Record :=
  match getAssoc results (pidOf p) with
  | some inner =>
    setAssoc p "local_image_paths"
      (.arr ((urlsOf p).map fun u => .str ((getAssoc inner u).getD "")))
  | none => p

/-- Local path produced by one task: the second component of
`download_image`'s returned pair. -/
def dlPath (fetch writeOk : String → Bool) (outputDir : String)
    (url pid : JValue) (i : Nat) : String :=
  (download_image fetch writeOk url outputDir pid i).1.2

/-- Embedding of `download_product_images` (downloader.py lines 74-134):
collect all tasks, drain the pool into `results`, then update each record
in place (modelled as `map`, since each update reads only the fixed
`results`). -/
def download_product_images (fetch writeOk : String → Bool)
    (products : List Record) (outputDir : String) : List Record :=
  if products.isEmpty then products
  else
    products.map
      (updateProduct (buildResults (dlPath fetch writeOk outputDir) (tasks products)))

/-! ## JSON loader (`src/product_processor/json_utils/loader.py`) -/

/-- Python `str.endswith`, used for the `.json` filename filter. -/
def pyEndsWith (s suffix : String) : Bool := suffix.data.isSuffixOf s.data

/-- Errors `load_json_files` raises: `FileNotFoundError` when the folder
does not exist (loader.py line 32) and `json.JSONDecodeError` re-raised
from a malformed file (lines 53-55). -/
inductive LoadError where
  | fileNotFound
  | jsonDecodeError (filename : String)
deriving DecidableEq

/-- Contribution of one successfully parsed file to the aggregate list
(loader.py lines 44-51): a list's elements are appended (`extend`), a dict
is appended as one record, any other top-level value is skipped with a
warning. -/
def contrib : JValue → List JValue
  | .arr xs => xs
  | .obj kvs => [.obj kvs]
  | _ => []

/-- The file loop of `load_json_files` (loader.py lines 35-58) over the
directory listing, carrying the `all_products` accumulator.  A file is a
`(name, parse result)` pair where `none` means `json.load` raises:
the error is re-raised, aborting the whole loop. -/
def loadFilesLoop :
    List (String × Option JValue) → List JValue → Except LoadError (List JValue)
  | [], acc => .ok acc
  | (name, content) :: rest, acc =>
    if pyEndsWith name ".json" then
      match content with
      | none => .error (.jsonDecodeError name)
      | some data => loadFilesLoop rest (acc ++ contrib data)
    else loadFilesLoop rest acc

/-- Embedding of `load_json_files` (loader.py lines 13-65).  The input
directory is `none` when the folder does not exist, otherwise the listing
`os.listdir` returns, in enumeration order, each file with its JSON parse
outcome. -/
def load_json_files (folder : Option (List (String × Option JValue))) :
    Except LoadError (List JValue) :=
  match folder with
  | none => .error .fileNotFound
  | some files => loadFilesLoop files []

/-! ## CSV generator (`src/product_processor/csv_utils/generator.py`) -/

/-- Rendering of a cell value by `csv.DictWriter`: `None` is written as
the empty string, any other value via `str()`. -/
def csvCell : JValue → String
  | .null => ""
  | v => pyStr v

/-- Python `str.title()` for the ASCII range: the first letter of each
alphabetic run uppercased, the rest lowercased. -/
def pyTitleAux : Bool → List Char → List Char
  | _, [] => []
  | prevAlpha, c :: cs =>
    let c' := if c.isAlpha then (if prevAlpha then c.toLower else c.toUpper) else c
    c' :: pyTitleAux c.isAlpha cs

/-- Python `str.title()` (ASCII model). -/
def pyTitle (s : String) : String := String.mk (pyTitleAux false s.data)

/-- Elements of a record field expected to hold a JSON list; absent or
non-list values give `[]` (generator.py uses `p.get(key, [])`; a present
non-list would raise downstream in Python). -/
def jElems (p : Record) (key : String) : List JValue :=
  match getAssoc p key with
  | some (.arr xs) => xs
  | _ => []

/-- First element of a JSON list (`value[0]`); `Python` raises IndexError
or TypeError outside this shape, which the model maps to `null`. -/
def jFirst : JValue → JValue
  | .arr (x :: _) => x
  | _ => .null

/-- Dict field access with default (`value.get(key, default)`); a
non-dict receiver raises in Python and yields the default here. -/
def objGetD : JValue → String → JValue → JValue
  | .obj kvs, k, d => (getAssoc kvs k).getD d
  | _, _, d => d

/-- The `weight_options` cell (generator.py line 61): title-cased
`available_weights` joined by `" - "`. -/
def weightOptionsCell (p : Record) : String :=
  String.intercalate " - "
    ((jElems p "available_weights").map fun w => pyTitle (pyStr w))

/-- The `THC_percent` cell (generator.py lines 63-66): when
`inventory_potencies` is truthy, `str(first.get("thc_potency", "")) + "%"`,
else the empty string. -/
def thcPercentCell (p : Record) : String :=
  let pot := (getAssoc p "inventory_potencies").getD .null
  if pot.truthy then pyStr (objGetD (jFirst pot) "thc_potency" (.str "")) ++ "%"
  else ""

/-- One price cell (generator.py lines 73-74): `"$<value>"` when the field
is present and truthy, else empty. -/
def priceCell (p : Record) (key : String) : String :=
  let v := (getAssoc p key).getD .null
  if v.truthy then "$" ++ pyStr v else ""

/-- Image URL values of a record as the generator reads them
(`p.get("image_urls", [])`, line 77). -/
def urlsJ (p : Record) : List JValue := jElems p "image_urls"

/-- The image cells of one row (generator.py lines 79-81):
`image_urls[i] if i < len(image_urls) else ""`, for `i < max_images`. -/
def imageCells (m : Nat) (p : Record) : List String :=
  (List.range m).map fun i => csvCell ((urlsJ p).getD i (.str ""))

/-- The `tags` cell (generator.py lines 84-89): every truthy
`discount_label` across `brand_special_prices` values, joined by `", "`. -/
def tagsCell (p : Record) : String :=
  let sps : List JValue := match getAssoc p "brand_special_prices" with
    | some (.obj kvs) => kvs.map Prod.snd
    | _ => []
  String.intercalate ", " (sps.filterMap fun sp =>
    if sp.truthy && (objGetD sp "discount_label" .null).truthy then
      some (pyStr (objGetD sp "discount_label" .null))
    else none)

/-- Python `.replace(' ', '-').lower()` composed, as the product link
builds it (single-character replacement commutes with lowering). -/
def pyDashLower (s : String) : String :=
  String.mk (s.data.map fun c => if c = ' ' then '-' else c.toLower)

/-- String content of a field expected to be a string (`p.get(k, '')`
followed by `str` methods); non-strings would raise in Python. -/
def strOrEmpty : JValue → String
  | .str s => s
  | _ => ""

/-- The `product_link` cell (generator.py line 92). -/
def productLinkCell (p : Record) : String :=
  "/shop/menu/products/" ++ pyStr ((getAssoc p "product_id").getD .null) ++ "/" ++
    pyDashLower (strOrEmpty ((getAssoc p "brand").getD (.str ""))) ++ "-" ++
    pyDashLower (strOrEmpty ((getAssoc p "name").getD (.str "")))

/-- The eleven fixed descriptive cells of a row, in header order
(generator.py lines 95-106). -/
def baseCells (p : Record) : List String :=
  [csvCell ((getAssoc p "brand").getD (.str "")),
   csvCell ((getAssoc p "name").getD (.str "")),
   csvCell ((getAssoc p "description").getD (.str "")),
   csvCell ((getAssoc p "type").getD (.str "")),
   csvCell ((getAssoc p "category").getD (.str "")),
   weightOptionsCell p,
   thcPercentCell p,
   csvCell ((getAssoc p "available_for_pickup").getD (.str "")),
   csvCell ((getAssoc p "available_for_delivery").getD (.str "")),
   csvCell ((getAssoc p "aggregate_rating").getD (.str "")),
   csvCell ((getAssoc p "review_count").getD (.str ""))]

/-- The five weight units of the price columns (generator.py line 47). -/
def weightsKeys : List String :=
  ["gram", "eighth_ounce", "quarter_ounce", "half_ounce", "ounce"]

/-- The ten price cells of a row, in header order (lines 69-74). -/
def priceCells (p : Record) : List String :=
  weightsKeys.flatMap fun w =>
    [priceCell p ("price_" ++ w), priceCell p ("discounted_price_" ++ w)]

/-- One output row in header order: the row dict of generator.py lines
95-111 serialized by `DictWriter` with the field order of `csv_fields`. -/
def rowOf (m : Nat) (p : Record) : List String :=
  baseCells p ++ priceCells p ++ imageCells m p ++ [tagsCell p, productLinkCell p]

/-- The eleven fixed descriptive headers (generator.py lines 40-44). -/
def baseFields : List String :=
  ["brand", "name", "description", "type", "category", "weight_options",
   "THC_percent", "available_for_pickup", "available_for_delivery",
   "aggregate_rating", "review_count"]

/-- The price headers (generator.py lines 46-49). -/
def priceFields : List String :=
  weightsKeys.flatMap fun w => ["price_" ++ w, "discounted_price_" ++ w]

/-- The dynamic image headers `image_1 .. image_m` (lines 51-53). -/
def imageFields (m : Nat) : List String :=
  (List.range m).map fun i => "image_" ++ toString (i + 1)

/-- The full header row (generator.py lines 40-55). -/
def csvFields (m : Nat) : List String :=
  baseFields ++ priceFields ++ imageFields m ++ ["tags", "product_link"]

/-- `max_images` (generator.py lines 32-35): running maximum of
`len(p.get("image_urls", []))` over the batch. -/
def maxImages (products : List Record) : Nat :=
  products.foldl (fun m p => max m (urlsJ p).length) 0

/-- Outcome of `generate_csv`: `error` models the `ValueError` raised
before anything is written (generator.py lines 27-29; the output file is
only opened at line 116, after every row is built), `written` the header
and rows the `DictWriter` writes to the output file. -/
inductive CsvResult where
  | error (msg : String)
  | written (file : String) (header : List String) (rows : List (List String))
deriving DecidableEq

/-- Embedding of `generate_csv` (generator.py lines 12-126). -/
def generate_csv (products : List Record) (outputFile : String) : CsvResult :=
  if products.isEmpty then .error "No products to write to CSV"
  else
    .written outputFile (csvFields (maxImages products))
      (products.map (rowOf (maxImages products)))

/-! ## Site scraper (`src/product_processor/scraper/scraper.py`) -/

/-- An HTML element as the scraper reads it: its text content and its
attributes (`bs4` tag `.get_text()` / `.get(name)`). -/
structure Element where
  text : String
  attrs : List (String × String)
deriving DecidableEq

/-- A parsed page, modelled by what `soup.select(selector)` returns for
each selector (the HTML/CSS mechanics are an external library). -/
abbrev Soup := List (String × List Element)

/-- The elements a selector matches on a page (`soup.select(sel)`). -/
def Soup.select (soup : Soup) (sel : String) : List Element :=
  (getAssoc soup sel).getD []

/-- Attribute access `tag.get(name)`: `None` when absent. -/
def Element.getAttr (e : Element) (name : String) : Option String :=
  getAssoc e.attrs name

/-- Python `.strip()` of surrounding whitespace. -/
def pyStrip (s : String) : String :=
  String.mk ((s.data.dropWhile Char.isWhitespace).reverse.dropWhile
    Char.isWhitespace).reverse

/-- Embedding of `ProductScraper.get_page` (scraper.py lines 33-59): the
`net` oracle stands for `requests.get` + HTML parsing and returns `none`
when the fetch fails (the `except` branches returning `None`, and the
falsy-soup case the callers treat identically). -/
def get_page (net : String → Option Soup) (urljoin : String → String → String)
    (baseUrl url : String) : Option Soup :=
  net (urljoin baseUrl url)

/-- Embedding of `ProductScraper.extract_product_links` (scraper.py lines
61-85): the `href` of every matched element, skipped when absent or falsy,
resolved against the base URL (`urljoin` passed as an oracle for
`urllib.parse.urljoin`). -/
def extract_product_links (urljoin : String → String → String) (baseUrl : String)
    (soup : Soup) (sel : String) : List String :=
  (Soup.select soup sel).filterMap fun link =>
    match link.getAttr "href" with
    | some href => if href.data.isEmpty then none else some (urljoin baseUrl href)
    | none => none

/-- One field extraction (scraper.py lines 101-109): a selector matching no
element sets nothing; `image_urls` collects every truthy `src`; any other
field takes the first element's stripped text. -/
def extractField (soup : Soup) (product : Record) (fs : String × String) : Record :=
  match Soup.select soup fs.2 with
  | [] => product
  | e :: es =>
    if fs.1 = "image_urls" then
      setAssoc product fs.1 (.arr ((e :: es).filterMap fun img =>
        match img.getAttr "src" with
        | some src => if src.data.isEmpty then none else some (.str src)
        | none => none))
    else setAssoc product fs.1 (.str (pyStrip e.text))

/-- Embedding of `ProductScraper.extract_product_data` (scraper.py lines
87-116): fold the selector map (in insertion order) into a fresh dict. -/
def extract_product_data (soup : Soup) (selectors : List (String × String)) : Record :=
  selectors.foldl (extractField soup) []

/-- One iteration of the product-page loop (scraper.py lines 148-159): a
failed page fetch skips the product (`continue`); an empty extracted dict
is dropped; otherwise the record gains `product_url = link` and is
appended. -/
def scrapeStep (net : String → Option Soup) (urljoin : String → String → String)
    (baseUrl : String) (selectors : List (String × String))
    (products : List Record) (link : String) : List Record :=
  match get_page net urljoin baseUrl link with
  | none => products
  | some soup =>
    let pd := extract_product_data soup selectors
    if pd.isEmpty then products
    else products ++ [setAssoc pd "product_url" (.str link)]

/-- Embedding of `ProductScraper.scrape_products` (scraper.py lines
118-162): fetch the category page (aborting with `[]` on failure), extract
product links, truncate to `max_products`, then walk each link. -/
def scrape_products (net : String → Option Soup) (urljoin : String → String → String)
    (baseUrl categoryUrl linkSel : String) (selectors : List (String × String))
    (maxProducts : Nat) : List Record :=
  match get_page net urljoin baseUrl categoryUrl with
  | none => []
  | some catSoup =>
    ((extract_product_links urljoin baseUrl catSoup linkSel).take
      maxProducts).foldl (scrapeStep net urljoin baseUrl selectors) []

/-- Aggregation the spec describes for the Loader: a sequence's elements
are all appended, a single mapping is appended as one record, any other
top-level JSON type contributes nothing; the result is ordered by file
enumeration order, then by array order within each file. -/
def loadedSpec (files : List (String × Option JValue)) : List JValue :=
  files.flatMap fun fc =>
    if pyEndsWith fc.1 ".json" then
      match fc.2 with
      | some data => contrib data
      | none => []
    else []

/-! ## Scraper theorems -/

/-- Failure policy the spec describes for the Site Scraper: a fetch
failure on the category-listing page aborts the whole scrape with no
products; each extracted link (truncated to the maximum) is then handled
independently — a fetch failure or an empty extraction drops only that
product, every other link still being processed. -/
def scrapeSpec (net : String → Option Soup) (urljoin : String → String → String)
    (baseUrl categoryUrl linkSel : String) (selectors : List (String × String))
    (maxProducts : Nat) : List Record :=
  match net (urljoin baseUrl categoryUrl) with
  | none => []
  | some catSoup =>
    ((extract_product_links urljoin baseUrl catSoup linkSel).take
      maxProducts).filterMap fun link =>
        match net (urljoin baseUrl link) with
        | none => none
        | some soup =>
          let pd := extract_product_data soup selectors
          if pd.isEmpty then none
          else some (setAssoc pd "product_url" (.str link))

/-- Concrete urljoin used by witnesses: an absolute (`http...`) reference
replaces the base, a relative one is appended. -/
def tUrljoin (b r : String) : String :=
  if ("http".data).isPrefixOf r.data then r else b ++ r

/-- Concrete site used by witnesses: a category page with one product
link and that product's page with one extractable field. -/
def tNet : String → Option Soup := fun u =>
  if u = "http://s/cat" then some [("a", [⟨"", [("href", "/p1")]⟩])]
  else if u = "http://s/p1" then some [("t", [⟨" N1 ", []⟩])]
  else none

/-- The category soup `tNet` serves. -/
def tCatSoup : Soup := [("a", [⟨"", [("href", "/p1")]⟩])]

/-- The record the concrete scrape produces. -/
def tRec : Record := [("name", .str "N1"), ("product_url", .str "http://s/p1")]

/-! ## CSV generator theorems: the THC cell -/

/-- Amended THC rendering: when `inventory_potencies` is present and a
non-empty list, the cell is `str(first.get("thc_potency", "")) + "%"` —
so `"<value>%"` when the key is present and the bare `"%"` when the first
element lacks the key — and the empty string when `inventory_potencies`
is absent or empty. -/
def thcSpecCell (p : Record) : String :=
  match getAssoc p "inventory_potencies" with
  | some (.arr (first :: _)) => pyStr (objGetD first "thc_potency" (.str "")) ++ "%"
  | _ => ""

/-- Well-formedness of the potency field: `inventory_potencies`, when
present, is a JSON list (a truthy non-list would raise a TypeError at
`p["inventory_potencies"][0]` in Python, which the embedding does not
model). -/
def wfPotencies (p : Record) : Bool :=
  match getAssoc p "inventory_potencies" with
  | some (.arr _) => true
  | some _ => false
  | none => true

/-! ## Downloader theorems: result-map characterization -/

/-- A task settles the `(product_id, url)` entry: it belongs to this
product id and url and its download produced a non-empty local path. -/
abbrev TaskHit (dl : JValue → JValue → Nat → String) (pid url : JValue)
    (t : JValue × Nat × JValue) : Prop :=
  t.1 = pid ∧ t.2.2 = url ∧ dl t.2.2 t.1 t.2.1 ≠ ""

/-- A task contributes to this product id: it belongs to the id and its
download produced a non-empty local path. -/
abbrev PidHit (dl : JValue → JValue → Nat → String) (pid : JValue)
    (t : JValue × Nat × JValue) : Prop :=
  t.1 = pid ∧ dl t.2.2 t.1 t.2.1 ≠ ""

/-- At least one URL of this product id (anywhere in the batch) downloaded
to a non-empty local path — the condition under which the source's update
loop finds `product_id in results`. -/
def PidSuccess (fetch writeOk : String → Bool) (outputDir : String)
    (products : List Record) (pid : JValue) : Prop :=
  ∃ p ∈ products, pidOf p = pid ∧ ∃ k u, (urlsOf p)[k]? = some u ∧
    dlPath fetch writeOk outputDir u pid k ≠ ""

/-- Some task for this product id and this URL downloaded to a non-empty
local path — the condition under which `results[product_id]` holds an
entry for the URL. -/
def UrlSuccess (fetch writeOk : String → Bool) (outputDir : String)
    (products : List Record) (pid url : JValue) : Prop :=
  ∃ p ∈ products, pidOf p = pid ∧ ∃ k, (urlsOf p)[k]? = some url ∧
    dlPath fetch writeOk outputDir url pid k ≠ ""

/-- Concrete batch used by the C1 and C8 witnesses: one record with one
fetchable URL and one empty (skipped) URL. -/
def tProducts : List Record :=
  [[("product_id", JValue.str "p1"),
    ("image_urls", JValue.arr [JValue.str "http://h.com/a.jpg", JValue.str ""])]]

/-! ## Theorems -/

theorem getAssoc_setAssoc_self {α β : Type} [DecidableEq α]
    (l : List (α × β)) (k : α) (v : β) : getAssoc (setAssoc l k v) k = some v := by
  induction l with
  | nil => simp [getAssoc, setAssoc]
  | cons hd tl ih =>
    obtain ⟨k', v'⟩ := hd
    by_cases hk : k' = k
    · simp [getAssoc, setAssoc, hk]
    · simp [getAssoc, setAssoc, hk, ih]

theorem getAssoc_setAssoc_ne {α β : Type} [DecidableEq α]
    (l : List (α × β)) (k key : α) (v : β) (h : key ≠ k) :
    getAssoc (setAssoc l k v) key = getAssoc l key := by
  have hne : ¬ k = key := fun hh => h hh.symm
  induction l with
  | nil => simp [getAssoc, setAssoc, hne]
  | cons hd tl ih =>
    obtain ⟨k', v'⟩ := hd
    by_cases hk : k' = k
    · subst hk
      simp [getAssoc, setAssoc, hne]
    · by_cases hk2 : k' = key <;> simp [getAssoc, setAssoc, hk, hk2, h, ih]

theorem isSome_getAssoc_setAssoc {α β : Type} [DecidableEq α]
    (l : List (α × β)) (k key : α) (v : β) :
    (getAssoc (setAssoc l k v) key).isSome =
      (key = k || (getAssoc l key).isSome) := by
  by_cases h : key = k
  · subst h; simp [getAssoc_setAssoc_self]
  · simp [getAssoc_setAssoc_ne l k key v h, h]

/-! ## Loader theorems -/

theorem loadFilesLoop_error (files : List (String × Option JValue))
    (acc : List JValue)
    (h : ∃ name, (name, (none : Option JValue)) ∈ files ∧ pyEndsWith name ".json" = true) :
    ∃ bad, pyEndsWith bad ".json" = true ∧ (bad, (none : Option JValue)) ∈ files ∧
      loadFilesLoop files acc = .error (.jsonDecodeError bad) := by
  induction files generalizing acc with
  | nil => obtain ⟨name, hmem, _⟩ := h; simp at hmem
  | cons hd tl ih =>
    obtain ⟨n, c⟩ := hd
    by_cases hjson : pyEndsWith n ".json" = true
    · cases c with
      | none =>
        exact ⟨n, hjson, by simp, by simp [loadFilesLoop, hjson]⟩
      | some data =>
        obtain ⟨name, hmem, hname⟩ := h
        have hmem' : (name, (none : Option JValue)) ∈ tl := by
          rcases List.mem_cons.mp hmem with heq | h2
          · cases heq
          · exact h2
        obtain ⟨bad, h1, h2, h3⟩ := ih (acc ++ contrib data) ⟨name, hmem', hname⟩
        exact ⟨bad, h1, List.mem_cons_of_mem _ h2, by simp [loadFilesLoop, hjson, h3]⟩
    · obtain ⟨name, hmem, hname⟩ := h
      have hmem' : (name, (none : Option JValue)) ∈ tl := by
        rcases List.mem_cons.mp hmem with heq | h2
        · injection heq with e1 e2
          exact absurd (e1 ▸ hname) hjson
        · exact h2
      obtain ⟨bad, h1, h2, h3⟩ := ih acc ⟨name, hmem', hname⟩
      exact ⟨bad, h1, List.mem_cons_of_mem _ h2, by simp [loadFilesLoop, hjson, h3]⟩

/-- C3: if any `.json` file in the directory fails to parse,
`load_json_files` raises the decode error and returns no records at all:
the result is an `Except.error` (carrying only the error, never a partial
record list). -/
theorem C3_loader_aborts_on_malformed (files : List (String × Option JValue))
    (name : String) (hmem : (name, (none : Option JValue)) ∈ files)
    (hjson : pyEndsWith name ".json" = true) :
    ∃ bad, pyEndsWith bad ".json" = true ∧ (bad, (none : Option JValue)) ∈ files ∧
      load_json_files (some files) = .error (.jsonDecodeError bad) ∧
      ∀ records, load_json_files (some files) ≠ .ok records := by
  obtain ⟨bad, h1, h2, h3⟩ := loadFilesLoop_error files [] ⟨name, hmem, hjson⟩
  exact ⟨bad, h1, h2, h3, fun records h => by
    rw [show load_json_files (some files) = loadFilesLoop files [] from rfl, h3] at h
    cases h⟩

/-- Witness for C3 at a concrete directory. -/
theorem C3_loader_aborts_on_malformed_witness :
    ∃ bad, pyEndsWith bad ".json" = true ∧
      (bad, (none : Option JValue)) ∈
        [("good.json", some (JValue.obj [])), ("bad.json", (none : Option JValue))] ∧
      load_json_files (some [("good.json", some (JValue.obj [])),
        ("bad.json", (none : Option JValue))]) = .error (.jsonDecodeError bad) ∧
      ∀ records, load_json_files (some [("good.json", some (JValue.obj [])),
        ("bad.json", (none : Option JValue))]) ≠ .ok records :=
  C3_loader_aborts_on_malformed _ "bad.json" (by decide) (by decide)

theorem loadFilesLoop_ok (files : List (String × Option JValue)) (acc : List JValue)
    (h : ∀ fc ∈ files, pyEndsWith fc.1 ".json" = true → fc.2 ≠ none) :
    loadFilesLoop files acc = .ok (acc ++ loadedSpec files) := by
  induction files generalizing acc with
  | nil => simp [loadFilesLoop, loadedSpec]
  | cons hd tl ih =>
    obtain ⟨n, c⟩ := hd
    have htl : ∀ fc ∈ tl, pyEndsWith fc.1 ".json" = true → fc.2 ≠ none :=
      fun fc hfc => h fc (List.mem_cons_of_mem _ hfc)
    by_cases hjson : pyEndsWith n ".json" = true
    · cases c with
      | none => exact absurd rfl (h (n, none) (by simp) hjson)
      | some data =>
        simp only [loadFilesLoop, hjson, if_pos, loadedSpec, List.flatMap_cons]
        rw [ih (acc ++ contrib data) htl]
        simp [loadedSpec, hjson]
    · simp only [loadFilesLoop, hjson, if_neg, loadedSpec, List.flatMap_cons]
      rw [ih acc htl]
      simp [loadedSpec, hjson]

/-- C6: when every `.json` file parses, `load_json_files` returns exactly
the spec's aggregate: each file whose top-level value is a sequence
contributes all its elements, a mapping contributes itself as one record,
anything else contributes nothing, ordered by file enumeration order then
array order. -/
theorem C6_loader_refines_spec (files : List (String × Option JValue))
    (h : ∀ fc ∈ files, pyEndsWith fc.1 ".json" = true → fc.2 ≠ none) :
    load_json_files (some files) = .ok (loadedSpec files) := by
  rw [show load_json_files (some files) = loadFilesLoop files [] from rfl,
    loadFilesLoop_ok files [] h]
  simp

/-- Witness for C6 at a concrete directory: an array file, a single-object
file, a non-`.json` file and a non-object top-level value. -/
theorem C6_loader_refines_spec_witness :
    load_json_files (some [("a.json", some (JValue.arr
        [JValue.obj [("product_id", JValue.str "1")], JValue.num 7])),
      ("b.json", some (JValue.obj [("product_id", JValue.str "2")])),
      ("notes.txt", (none : Option JValue)),
      ("c.json", some (JValue.num 3))]) =
    .ok (loadedSpec [("a.json", some (JValue.arr
        [JValue.obj [("product_id", JValue.str "1")], JValue.num 7])),
      ("b.json", some (JValue.obj [("product_id", JValue.str "2")])),
      ("notes.txt", (none : Option JValue)),
      ("c.json", some (JValue.num 3))]) :=
  C6_loader_refines_spec _ (by decide)

/-! ## CSV generator theorems: empty batch and THC cell -/

/-- C4: `generate_csv` on an empty record sequence fails with the
validation error, raised before the output file is opened — the `error`
outcome writes nothing. -/
theorem C4_empty_batch_rejected (outputFile : String) :
    generate_csv [] outputFile = .error "No products to write to CSV" := rfl

/-! ## Downloader theorem: the falsy-URL fast path -/

/-- C9: `download_image` on a falsy URL returns `(url, "")` immediately,
with no side effect at all — no directory creation, no network fetch, no
file write (the empty effect trace). -/
theorem C9_download_image_falsy_url (fetch writeOk : String → Bool)
    (url : JValue) (outputDir : String) (productId : JValue) (index : Nat)
    (h : url.truthy = false) :
    download_image fetch writeOk url outputDir productId index = ((url, ""), []) := by
  unfold download_image
  simp [h]

/-- Witness for C9 at the empty-string URL. -/
theorem C9_download_image_falsy_url_witness :
    download_image (fun _ => true) (fun _ => true) (JValue.str "") "out"
      (JValue.str "p1") 0 = ((JValue.str "", ""), []) :=
  C9_download_image_falsy_url _ _ _ _ _ _ (by decide)

theorem foldl_scrapeStep_eq (net : String → Option Soup)
    (urljoin : String → String → String) (baseUrl : String)
    (selectors : List (String × String)) (links : List String)
    (acc : List Record) :
    links.foldl (scrapeStep net urljoin baseUrl selectors) acc =
      acc ++ links.filterMap fun link =>
        match net (urljoin baseUrl link) with
        | none => none
        | some soup =>
          let pd := extract_product_data soup selectors
          if pd.isEmpty then none
          else some (setAssoc pd "product_url" (.str link)) := by
  induction links generalizing acc with
  | nil => simp
  | cons hd tl ih =>
    rw [List.foldl_cons, ih, List.filterMap_cons]
    show (scrapeStep net urljoin baseUrl selectors acc hd) ++ _ = _
    unfold scrapeStep get_page
    cases net (urljoin baseUrl hd) with
    | none => simp
    | some soup =>
      by_cases hpd : (extract_product_data soup selectors).isEmpty
      · simp [hpd]
      · simp [hpd]

/-- C7: in `scrape_products`, a fetch failure on the category-listing page
returns the empty product list, while each product link is handled by an
independent `filterMap` step, so a fetch failure on one product page only
drops that product and the scrape continues with the remaining links
(stated as equality with `scrapeSpec`, the spec's failure policy). -/
theorem C7_scrape_failure_policy (net : String → Option Soup)
    (urljoin : String → String → String) (baseUrl categoryUrl linkSel : String)
    (selectors : List (String × String)) (maxProducts : Nat) :
    scrape_products net urljoin baseUrl categoryUrl linkSel selectors maxProducts =
      scrapeSpec net urljoin baseUrl categoryUrl linkSel selectors maxProducts ∧
    (net (urljoin baseUrl categoryUrl) = none →
      scrape_products net urljoin baseUrl categoryUrl linkSel selectors
        maxProducts = []) := by
  constructor
  · unfold scrape_products scrapeSpec get_page
    cases net (urljoin baseUrl categoryUrl) with
    | none => rfl
    | some catSoup =>
      exact foldl_scrapeStep_eq net urljoin baseUrl selectors _ []
  · intro h
    unfold scrape_products get_page
    rw [h]

/-- C10: with the category page fetched, a record is in the scrape result
exactly when some taken link's page was fetched and its extraction was
non-empty, the record being that extraction plus `product_url = link`; in
particular a fetched page whose extraction is empty contributes nothing,
and every returned record carries `product_url` equal to the link it was
scraped from. -/
theorem C10_scraped_records (net : String → Option Soup)
    (urljoin : String → String → String) (baseUrl categoryUrl linkSel : String)
    (selectors : List (String × String)) (maxProducts : Nat) (catSoup : Soup)
    (hcat : net (urljoin baseUrl categoryUrl) = some catSoup) (r : Record) :
    (r ∈ scrape_products net urljoin baseUrl categoryUrl linkSel selectors
        maxProducts ↔
      ∃ link ∈ (extract_product_links urljoin baseUrl catSoup linkSel).take
          maxProducts, ∃ soup, net (urljoin baseUrl link) = some soup ∧
        extract_product_data soup selectors ≠ [] ∧
        r = setAssoc (extract_product_data soup selectors) "product_url"
          (.str link)) ∧
    (r ∈ scrape_products net urljoin baseUrl categoryUrl linkSel selectors
        maxProducts →
      ∃ link, getAssoc r "product_url" = some (.str link) ∧
        ∃ soup, net (urljoin baseUrl link) = some soup ∧
          r = setAssoc (extract_product_data soup selectors) "product_url"
            (.str link)) := by
  have hres : scrape_products net urljoin baseUrl categoryUrl linkSel selectors
      maxProducts =
      ((extract_product_links urljoin baseUrl catSoup linkSel).take
        maxProducts).filterMap fun link =>
          match net (urljoin baseUrl link) with
          | none => none
          | some soup =>
            let pd := extract_product_data soup selectors
            if pd.isEmpty then none
            else some (setAssoc pd "product_url" (.str link)) := by
    unfold scrape_products get_page
    rw [hcat]
    exact foldl_scrapeStep_eq net urljoin baseUrl selectors _ []
  have hchar : ∀ link, (∀ res, (match net (urljoin baseUrl link) with
      | none => none
      | some soup =>
        let pd := extract_product_data soup selectors
        if pd.isEmpty then none
        else some (setAssoc pd "product_url" (.str link))) = some res ↔
      ∃ soup, net (urljoin baseUrl link) = some soup ∧
        extract_product_data soup selectors ≠ [] ∧
        res = setAssoc (extract_product_data soup selectors) "product_url"
          (.str link)) := by
    intro link res
    cases hnet : net (urljoin baseUrl link) with
    | none => simp
    | some soup =>
      by_cases hpd : (extract_product_data soup selectors).isEmpty
      · simp [hpd, List.isEmpty_iff.mp hpd]
      · simp only [hpd]
        constructor
        · intro h
          exact ⟨soup, rfl, fun hh => hpd (by simp [hh, List.isEmpty_iff]),
            (Option.some.injEq .. ▸ h).symm⟩
        · rintro ⟨soup', hs, hne, hr⟩
          injection hs with hs
          subst hs
          simp [hr]
  have hiff : r ∈ scrape_products net urljoin baseUrl categoryUrl linkSel
      selectors maxProducts ↔
      ∃ link ∈ (extract_product_links urljoin baseUrl catSoup linkSel).take
          maxProducts, ∃ soup, net (urljoin baseUrl link) = some soup ∧
        extract_product_data soup selectors ≠ [] ∧
        r = setAssoc (extract_product_data soup selectors) "product_url"
          (.str link) := by
    rw [hres, List.mem_filterMap]
    constructor
    · rintro ⟨link, hlink, hf⟩
      exact ⟨link, hlink, (hchar link r).mp hf⟩
    · rintro ⟨link, hlink, hrest⟩
      exact ⟨link, hlink, (hchar link r).mpr hrest⟩
  refine ⟨hiff, ?_⟩
  intro hr
  obtain ⟨link, _, soup, hs, hne, hr'⟩ := hiff.mp hr
  exact ⟨link, by rw [hr']; exact getAssoc_setAssoc_self _ _ _, soup, hs, hr'⟩

/-- Witness for C10 at the concrete site. -/
theorem C10_scraped_records_witness :
    (tRec ∈ scrape_products tNet tUrljoin "http://s" "/cat" "a"
        [("name", "t")] 10 ↔
      ∃ link ∈ (extract_product_links tUrljoin "http://s" tCatSoup "a").take 10,
        ∃ soup, tNet (tUrljoin "http://s" link) = some soup ∧
          extract_product_data soup [("name", "t")] ≠ [] ∧
          tRec = setAssoc (extract_product_data soup [("name", "t")])
            "product_url" (.str link)) ∧
    (tRec ∈ scrape_products tNet tUrljoin "http://s" "/cat" "a"
        [("name", "t")] 10 →
      ∃ link, getAssoc tRec "product_url" = some (.str link) ∧
        ∃ soup, tNet (tUrljoin "http://s" link) = some soup ∧
          tRec = setAssoc (extract_product_data soup [("name", "t")])
            "product_url" (.str link)) :=
  C10_scraped_records tNet tUrljoin "http://s" "/cat" "a" [("name", "t")] 10
    tCatSoup (by decide) tRec

/-! ## CSV generator theorems: image columns -/

theorem le_foldl_max (f : Record → Nat) (l : List Record) (a : Nat) :
    a ≤ l.foldl (fun m p => max m (f p)) a := by
  induction l generalizing a with
  | nil => simp
  | cons hd tl ih => exact le_trans (le_max_left a (f hd)) (ih (max a (f hd)))

theorem mem_le_foldl_max (f : Record → Nat) (l : List Record) (a : Nat)
    (q : Record) (hq : q ∈ l) :
    f q ≤ l.foldl (fun m p => max m (f p)) a := by
  induction l generalizing a with
  | nil => cases hq
  | cons hd tl ih =>
    rcases List.mem_cons.mp hq with heq | h2
    · subst heq
      exact le_trans (le_max_right a (f q)) (le_foldl_max f tl (max a (f q)))
    · exact ih (max a (f hd)) h2

theorem foldl_max_attained (f : Record → Nat) (l : List Record) (a : Nat) :
    l.foldl (fun m p => max m (f p)) a = a ∨
      ∃ q ∈ l, l.foldl (fun m p => max m (f p)) a = f q := by
  induction l generalizing a with
  | nil => left; rfl
  | cons hd tl ih =>
    rcases ih (max a (f hd)) with h | ⟨q, hq, h⟩
    · rw [List.foldl_cons, h]
      rcases max_choice a (f hd) with h2 | h2
      · left; exact h2
      · right; exact ⟨hd, by simp, h2⟩
    · right; exact ⟨q, List.mem_cons_of_mem _ hq, by rw [List.foldl_cons, h]⟩

theorem le_maxImages (products : List Record) (q : Record) (hq : q ∈ products) :
    (urlsJ q).length ≤ maxImages products :=
  mem_le_foldl_max (fun p => (urlsJ p).length) products 0 q hq

theorem maxImages_attained (products : List Record) (hne : products ≠ []) :
    ∃ q ∈ products, (urlsJ q).length = maxImages products := by
  rcases foldl_max_attained (fun p => (urlsJ p).length) products 0 with h | ⟨q, hq, h⟩
  · obtain ⟨hd, tl, rfl⟩ := List.exists_cons_of_ne_nil hne
    refine ⟨hd, by simp, ?_⟩
    have h1 : (urlsJ hd).length ≤ maxImages (hd :: tl) :=
      le_maxImages (hd :: tl) hd (by simp)
    have h2 : maxImages (hd :: tl) = 0 := h
    omega
  · exact ⟨q, hq, h.symm⟩

theorem imageCells_getElem (m : Nat) (p : Record) (i : Nat) (h2 : i < m) :
    (imageCells m p)[i]? = some (csvCell ((urlsJ p).getD i (.str ""))) := by
  unfold imageCells
  rw [List.getElem?_map, List.getElem?_range h2]
  rfl

/-- C2: on a non-empty batch, `generate_csv` emits `csvFields m` with
exactly `m = maxImages products` image columns, where `m` is the maximum
`image_urls` length over the batch (an upper bound that is attained), and
a record with fewer images has the empty string in every trailing image
cell. -/
theorem C2_image_columns (products : List Record) (outputFile : String)
    (hne : products ≠ []) (p : Record) (hp : p ∈ products) (i : Nat)
    (h1 : (urlsJ p).length ≤ i) (h2 : i < maxImages products) :
    generate_csv products outputFile = .written outputFile
      (csvFields (maxImages products))
      (products.map (rowOf (maxImages products))) ∧
    (imageFields (maxImages products)).length = maxImages products ∧
    (∀ q ∈ products, (urlsJ q).length ≤ maxImages products) ∧
    (∃ q ∈ products, (urlsJ q).length = maxImages products) ∧
    (imageCells (maxImages products) p)[i]? = some "" := by
  refine ⟨?_, by simp [imageFields], fun q hq => le_maxImages products q hq,
    maxImages_attained products hne, ?_⟩
  · unfold generate_csv
    rw [if_neg (by simp [hne])]
  · rw [imageCells_getElem _ _ _ h2, List.getD_eq_default _ _ h1]
    rfl

/-- Witness for C2: a two-record batch, the second record having no
images; its second image cell (index 1) is blank. -/
theorem C2_image_columns_witness :
    generate_csv [[("image_urls", JValue.arr [JValue.str "u1", JValue.str "u2"])],
        [("name", JValue.str "B")]] "o.csv" = .written "o.csv"
      (csvFields (maxImages [[("image_urls",
        JValue.arr [JValue.str "u1", JValue.str "u2"])], [("name", JValue.str "B")]]))
      ([[("image_urls", JValue.arr [JValue.str "u1", JValue.str "u2"])],
        [("name", JValue.str "B")]].map (rowOf (maxImages [[("image_urls",
        JValue.arr [JValue.str "u1", JValue.str "u2"])], [("name", JValue.str "B")]]))) ∧
    (imageFields (maxImages [[("image_urls",
        JValue.arr [JValue.str "u1", JValue.str "u2"])], [("name", JValue.str "B")]])).length =
      maxImages [[("image_urls", JValue.arr [JValue.str "u1", JValue.str "u2"])],
        [("name", JValue.str "B")]] ∧
    (∀ q ∈ [[("image_urls", JValue.arr [JValue.str "u1", JValue.str "u2"])],
        [("name", JValue.str "B")]], (urlsJ q).length ≤
      maxImages [[("image_urls", JValue.arr [JValue.str "u1", JValue.str "u2"])],
        [("name", JValue.str "B")]]) ∧
    (∃ q ∈ [[("image_urls", JValue.arr [JValue.str "u1", JValue.str "u2"])],
        [("name", JValue.str "B")]], (urlsJ q).length =
      maxImages [[("image_urls", JValue.arr [JValue.str "u1", JValue.str "u2"])],
        [("name", JValue.str "B")]]) ∧
    (imageCells (maxImages [[("image_urls",
        JValue.arr [JValue.str "u1", JValue.str "u2"])], [("name", JValue.str "B")]])
      [("name", JValue.str "B")])[1]? = some "" :=
  C2_image_columns _ "o.csv" (by decide) [("name", JValue.str "B")] (by decide) 1
    (by decide) (by decide)

theorem thcPercentCell_eq_spec (p : Record) (hwf : wfPotencies p = true) :
    thcPercentCell p = thcSpecCell p := by
  unfold wfPotencies at hwf
  unfold thcPercentCell thcSpecCell
  cases h : getAssoc p "inventory_potencies" with
  | none => simp [h, JValue.truthy]
  | some v =>
    rw [h] at hwf
    cases v with
    | arr xs =>
      cases xs with
      | nil => simp [h, JValue.truthy]
      | cons f rest => simp [h, JValue.truthy, jFirst]
    | null => simp at hwf
    | bool b => simp at hwf
    | num n => simp at hwf
    | str s => simp at hwf
    | obj kvs => simp at hwf

theorem rowOf_thc_cell (m : Nat) (p : Record) :
    (rowOf m p)[6]? = some (thcPercentCell p) := rfl

/-- C5 counterexample: a record whose `inventory_potencies` is a
non-empty list whose first element lacks `thc_potency` renders the
`THC_percent` cell as `"%"`, not the empty string the claim requires for
an absent potency. -/
theorem C5_thc_missing_key_cex :
    thcPercentCell [("inventory_potencies", JValue.arr [JValue.obj []])] = "%" ∧
    "%" ≠ "" ∧
    (rowOf (maxImages [[("inventory_potencies", JValue.arr [JValue.obj []])]])
      [("inventory_potencies", JValue.arr [JValue.obj []])])[6]? = some "%" ∧
    generate_csv [[("inventory_potencies", JValue.arr [JValue.obj []])]] "o.csv" =
      .written "o.csv" (csvFields 0)
        [rowOf 0 [("inventory_potencies", JValue.arr [JValue.obj []])]] := by
  refine ⟨by decide, by decide, by decide, by decide⟩

/-- C5 amended: for every record of a non-empty batch whose
`inventory_potencies` is a list when present, the `THC_percent` cell
(column 6 of its row) is `str(first.get("thc_potency", "")) + "%"` when
the list is non-empty — `"<value>%"` if the key is present, `"%"` if not —
and the empty string when the field is absent or the list empty. -/
theorem C5_thc_cell_amended (products : List Record) (outputFile : String)
    (hne : products ≠ []) (p : Record) (hp : p ∈ products)
    (hwf : wfPotencies p = true) :
    generate_csv products outputFile = .written outputFile
      (csvFields (maxImages products))
      (products.map (rowOf (maxImages products))) ∧
    rowOf (maxImages products) p ∈ products.map (rowOf (maxImages products)) ∧
    (rowOf (maxImages products) p)[6]? = some (thcSpecCell p) := by
  refine ⟨?_, List.mem_map_of_mem _ hp, ?_⟩
  · unfold generate_csv
    rw [if_neg (by simp [hne])]
  · rw [rowOf_thc_cell, thcPercentCell_eq_spec p hwf]

/-- Witness for C5 at the spec's own vectors: `[{"thc_potency": 18}]`
renders `18%` and `[]` renders the empty string. -/
theorem C5_thc_cell_amended_witness :
    (generate_csv [[("inventory_potencies",
        JValue.arr [JValue.obj [("thc_potency", JValue.num 18)]])],
        [("inventory_potencies", JValue.arr [])]] "o.csv" = .written "o.csv"
      (csvFields (maxImages [[("inventory_potencies",
        JValue.arr [JValue.obj [("thc_potency", JValue.num 18)]])],
        [("inventory_potencies", JValue.arr [])]]))
      ([[("inventory_potencies",
        JValue.arr [JValue.obj [("thc_potency", JValue.num 18)]])],
        [("inventory_potencies", JValue.arr [])]].map
          (rowOf (maxImages [[("inventory_potencies",
        JValue.arr [JValue.obj [("thc_potency", JValue.num 18)]])],
        [("inventory_potencies", JValue.arr [])]])))) ∧
    rowOf (maxImages [[("inventory_potencies",
        JValue.arr [JValue.obj [("thc_potency", JValue.num 18)]])],
        [("inventory_potencies", JValue.arr [])]])
      [("inventory_potencies",
        JValue.arr [JValue.obj [("thc_potency", JValue.num 18)]])] ∈
      [[("inventory_potencies",
        JValue.arr [JValue.obj [("thc_potency", JValue.num 18)]])],
        [("inventory_potencies", JValue.arr [])]].map
          (rowOf (maxImages [[("inventory_potencies",
        JValue.arr [JValue.obj [("thc_potency", JValue.num 18)]])],
        [("inventory_potencies", JValue.arr [])]])) ∧
    (rowOf (maxImages [[("inventory_potencies",
        JValue.arr [JValue.obj [("thc_potency", JValue.num 18)]])],
        [("inventory_potencies", JValue.arr [])]])
      [("inventory_potencies",
        JValue.arr [JValue.obj [("thc_potency", JValue.num 18)]])])[6]? =
      some (thcSpecCell [("inventory_potencies",
        JValue.arr [JValue.obj [("thc_potency", JValue.num 18)]])]) :=
  C5_thc_cell_amended _ "o.csv" (by decide)
    [("inventory_potencies", JValue.arr [JValue.obj [("thc_potency", JValue.num 18)]])]
    (by decide) (by decide)

theorem resPath_resStep (dl : JValue → JValue → Nat → String) (m : ResMap)
    (t : JValue × Nat × JValue) (pid url : JValue) :
    resPath (resStep dl m t) pid url =
      if TaskHit dl pid url t then some (dl t.2.2 t.1 t.2.1)
      else resPath m pid url := by
  obtain ⟨p, i, u⟩ := t
  simp only [resStep, TaskHit]
  by_cases hpath : (dl u p i).isEmpty
  · rw [if_pos hpath, if_neg]
    rintro ⟨-, -, hne⟩
    exact hne ((String.isEmpty_iff _).mp hpath)
  · rw [if_neg hpath]
    have hne : dl u p i ≠ "" := fun hh => hpath ((String.isEmpty_iff _).mpr hh)
    by_cases hp : p = pid
    · subst hp
      cases hm : getAssoc m p with
      | some inner =>
        by_cases hu : u = url
        · subst hu
          simp [resPath, hm, getAssoc_setAssoc_self, hne]
        · have hu2 : url ≠ u := fun hh => hu hh.symm
          simp [resPath, hm, getAssoc_setAssoc_self, getAssoc_setAssoc_ne inner u url _ hu2, hu]
      | none =>
        by_cases hu : u = url
        · subst hu
          simp [resPath, hm, getAssoc_setAssoc_self, hne, getAssoc]
        · have hu2 : url ≠ u := fun hh => hu hh.symm
          simp [resPath, hm, getAssoc_setAssoc_self, getAssoc, hu2, hu]
    · have hno : pid ≠ p := fun hh => hp hh.symm
      cases hm : getAssoc m p with
      | some inner =>
        simp [resPath, getAssoc_setAssoc_ne m p pid _ hno, hp]
      | none =>
        simp [resPath, getAssoc_setAssoc_ne m p pid _ hno, hp]

theorem isSome_getAssoc_resStep (dl : JValue → JValue → Nat → String)
    (m : ResMap) (t : JValue × Nat × JValue) (pid : JValue) :
    ((getAssoc (resStep dl m t) pid).isSome = true) ↔
      (PidHit dl pid t ∨ (getAssoc m pid).isSome = true) := by
  obtain ⟨p, i, u⟩ := t
  simp only [resStep, PidHit]
  by_cases hpath : (dl u p i).isEmpty
  · rw [if_pos hpath]
    have h0 : dl u p i = "" := (String.isEmpty_iff _).mp hpath
    simp [h0]
  · rw [if_neg hpath]
    have hne : dl u p i ≠ "" := fun hh => hpath ((String.isEmpty_iff _).mpr hh)
    cases hm : getAssoc m p with
    | some inner =>
      rw [isSome_getAssoc_setAssoc]
      by_cases hp : pid = p
      · subst hp
        simp [hm, hne]
      · simp only [isSome_getAssoc_setAssoc] at *
        simp [hp]
        exact fun h1 h2 => absurd h1.symm hp
    | none =>
      rw [isSome_getAssoc_setAssoc]
      by_cases hp : pid = p
      · subst hp
        simp [hm, hne]
      · simp [hp]
        exact fun h1 h2 => absurd h1.symm hp

theorem isSome_getAssoc_foldl (dl : JValue → JValue → Nat → String)
    (ts : List (JValue × Nat × JValue)) (m : ResMap) (pid : JValue) :
    ((getAssoc (ts.foldl (resStep dl) m) pid).isSome = true) ↔
      ((∃ t ∈ ts, PidHit dl pid t) ∨ (getAssoc m pid).isSome = true) := by
  induction ts generalizing m with
  | nil => simp
  | cons hd tl ih =>
    rw [List.foldl_cons, ih, isSome_getAssoc_resStep]
    simp only [List.mem_cons]
    constructor
    · rintro (⟨t, ht, hhit⟩ | h)
      · exact Or.inl ⟨t, Or.inr ht, hhit⟩
      · rcases h with h | h
        · exact Or.inl ⟨hd, Or.inl rfl, h⟩
        · exact Or.inr h
    · rintro (⟨t, rfl | ht, hhit⟩ | h)
      · exact Or.inr (Or.inl hhit)
      · exact Or.inl ⟨t, ht, hhit⟩
      · exact Or.inr (Or.inr h)

theorem resPath_foldl_none (dl : JValue → JValue → Nat → String)
    (ts : List (JValue × Nat × JValue)) (m : ResMap) (pid url : JValue) :
    (resPath (ts.foldl (resStep dl) m) pid url = none) ↔
      (resPath m pid url = none ∧ ¬ ∃ t ∈ ts, TaskHit dl pid url t) := by
  induction ts generalizing m with
  | nil => simp
  | cons hd tl ih =>
    rw [List.foldl_cons, ih, resPath_resStep]
    by_cases hc : TaskHit dl pid url hd
    · rw [if_pos hc]
      simp only [List.mem_cons]
      constructor
      · rintro ⟨h, -⟩; cases h
      · rintro ⟨-, hnex⟩
        exact absurd ⟨hd, Or.inl rfl, hc⟩ hnex
    · rw [if_neg hc]
      simp only [List.mem_cons]
      constructor
      · rintro ⟨h1, h2⟩
        refine ⟨h1, ?_⟩
        rintro ⟨t, rfl | ht, hhit⟩
        · exact hc hhit
        · exact h2 ⟨t, ht, hhit⟩
      · rintro ⟨h1, h2⟩
        exact ⟨h1, fun ⟨t, ht, hhit⟩ => h2 ⟨t, Or.inr ht, hhit⟩⟩

theorem resPath_foldl_ne_empty (dl : JValue → JValue → Nat → String)
    (ts : List (JValue × Nat × JValue)) (m : ResMap) (pid url : JValue)
    (hm : ∀ s, resPath m pid url = some s → s ≠ "") :
    ∀ s, resPath (ts.foldl (resStep dl) m) pid url = some s → s ≠ "" := by
  induction ts generalizing m with
  | nil => exact hm
  | cons hd tl ih =>
    rw [List.foldl_cons]
    apply ih
    intro s hs
    rw [resPath_resStep] at hs
    by_cases hc : TaskHit dl pid url hd
    · rw [if_pos hc] at hs
      injection hs with hs
      subst hs
      exact hc.2.2
    · rw [if_neg hc] at hs
      exact hm s hs

theorem resPath_buildResults_empty_iff (dl : JValue → JValue → Nat → String)
    (ts : List (JValue × Nat × JValue)) (pid url : JValue) :
    ((resPath (buildResults dl ts) pid url).getD "" = "") ↔
      ¬ ∃ t ∈ ts, TaskHit dl pid url t := by
  unfold buildResults
  have hbase : resPath ([] : ResMap) pid url = none := rfl
  constructor
  · intro h hex
    cases hres : resPath (ts.foldl (resStep dl) []) pid url with
    | none =>
      have := (resPath_foldl_none dl ts [] pid url).mp hres
      exact this.2 hex
    | some s =>
      have hne := resPath_foldl_ne_empty dl ts [] pid url
        (by rw [hbase]; intro s hs; cases hs) s hres
      rw [hres] at h
      exact hne h
  · intro hnex
    have h0 : resPath (ts.foldl (resStep dl) []) pid url = none :=
      (resPath_foldl_none dl ts [] pid url).mpr ⟨hbase, hnex⟩
    rw [h0]
    rfl

theorem mem_enumTasks (pid : JValue) (n : Nat) (us : List JValue)
    (t : JValue × Nat × JValue) :
    t ∈ enumTasks pid n us ↔ ∃ k u, us[k]? = some u ∧ t = (pid, n + k, u) := by
  induction us generalizing n with
  | nil => simp [enumTasks]
  | cons hd tl ih =>
    simp only [enumTasks, List.mem_cons, ih]
    constructor
    · rintro (rfl | ⟨k, u, hk, rfl⟩)
      · exact ⟨0, hd, by simp⟩
      · exact ⟨k + 1, u, by rw [List.getElem?_cons_succ]; exact hk,
          by rw [Nat.add_assoc, Nat.add_comm 1 k]⟩
    · rintro ⟨k, u, hk, rfl⟩
      cases k with
      | zero =>
        left
        simp only [List.getElem?_cons_zero] at hk
        injection hk with hk
        simp [hk]
      | succ k =>
        right
        exact ⟨k, u, by rwa [List.getElem?_cons_succ] at hk,
          by rw [Nat.add_assoc, Nat.add_comm 1 k]⟩

theorem exists_pidHit_iff (fetch writeOk : String → Bool) (outputDir : String)
    (products : List Record) (pid : JValue) :
    (∃ t ∈ tasks products, PidHit (dlPath fetch writeOk outputDir) pid t) ↔
      PidSuccess fetch writeOk outputDir products pid := by
  unfold tasks PidSuccess
  constructor
  · rintro ⟨t, ht, hhit⟩
    obtain ⟨p, hp, htp⟩ := List.mem_flatMap.mp ht
    obtain ⟨k, u, hk, rfl⟩ := (mem_enumTasks _ _ _ _).mp htp
    have h1 : pidOf p = pid := hhit.1
    have h2 : dlPath fetch writeOk outputDir u (pidOf p) (0 + k) ≠ "" := hhit.2
    rw [Nat.zero_add] at h2
    exact ⟨p, hp, h1, k, u, hk, h1 ▸ h2⟩
  · rintro ⟨p, hp, hpid, k, u, hk, hdl⟩
    refine ⟨(pidOf p, 0 + k, u), List.mem_flatMap.mpr ⟨p, hp, ?_⟩, ?_, ?_⟩
    · exact (mem_enumTasks _ _ _ _).mpr ⟨k, u, hk, rfl⟩
    · exact hpid
    · show dlPath fetch writeOk outputDir u (pidOf p) (0 + k) ≠ ""
      rw [Nat.zero_add, hpid]
      exact hdl

theorem exists_taskHit_iff (fetch writeOk : String → Bool) (outputDir : String)
    (products : List Record) (pid url : JValue) :
    (∃ t ∈ tasks products, TaskHit (dlPath fetch writeOk outputDir) pid url t) ↔
      UrlSuccess fetch writeOk outputDir products pid url := by
  unfold tasks UrlSuccess
  constructor
  · rintro ⟨t, ht, hhit⟩
    obtain ⟨p, hp, htp⟩ := List.mem_flatMap.mp ht
    obtain ⟨k, u, hk, rfl⟩ := (mem_enumTasks _ _ _ _).mp htp
    have h1 : pidOf p = pid := hhit.1
    have h2 : u = url := hhit.2.1
    have h3 : dlPath fetch writeOk outputDir u (pidOf p) (0 + k) ≠ "" := hhit.2.2
    rw [Nat.zero_add] at h3
    subst h2
    exact ⟨p, hp, h1, k, hk, h1 ▸ h3⟩
  · rintro ⟨p, hp, hpid, k, hk, hdl⟩
    refine ⟨(pidOf p, 0 + k, url), List.mem_flatMap.mpr ⟨p, hp, ?_⟩, ?_, rfl, ?_⟩
    · exact (mem_enumTasks _ _ _ _).mpr ⟨k, url, hk, rfl⟩
    · exact hpid
    · show dlPath fetch writeOk outputDir url (pidOf p) (0 + k) ≠ ""
      rw [Nat.zero_add, hpid]
      exact hdl

theorem getD_map_of_lt {α β : Type} (l : List α) (f : α → β) (j : Nat)
    (hj : j < l.length) (d : α) (d2 : β) :
    (l.map f).getD j d2 = f (l.getD j d) := by
  induction l generalizing j with
  | nil => simp at hj
  | cons hd tl ih =>
    cases j with
    | zero => rfl
    | succ j => exact ih j (by simpa using hj)

/-- C1 counterexample: a batch whose single record has one image URL and
whose download fails is returned with NO `local_image_paths` field at all
(the update loop only touches records whose product id appears in
`results`), refuting the claim that every record gains the field. -/
theorem C1_all_failed_no_field_cex :
    download_product_images (fun _ => false) (fun _ => true)
      [[("product_id", JValue.str "p1"),
        ("image_urls", JValue.arr [JValue.str "http://h.com/a.jpg"])]] "out" =
      [[("product_id", JValue.str "p1"),
        ("image_urls", JValue.arr [JValue.str "http://h.com/a.jpg"])]] ∧
    getAssoc ((download_product_images (fun _ => false) (fun _ => true)
      [[("product_id", JValue.str "p1"),
        ("image_urls", JValue.arr [JValue.str "http://h.com/a.jpg"])]]
      "out").getD 0 []) "local_image_paths" = none := by
  refine ⟨by decide, by decide⟩

/-- C1 amended: `download_product_images` returns one record per input
record in order; a record whose product id has at least one successful
download (anywhere in the batch) gains `local_image_paths`, parallel to
its `image_urls`, each entry holding the recorded path of that URL under
that product id; a record whose product id has no successful download is
returned unchanged (no field is added); and an entry is the empty string
precisely when no download of that URL under that product id produced a
path — so one URL's failure never disturbs the other URLs or records. -/
theorem C1_download_images_amended (fetch writeOk : String → Bool)
    (outputDir : String) (products : List Record) (j : Nat)
    (hj : j < products.length) :
    (download_product_images fetch writeOk products outputDir).length =
      products.length ∧
    (PidSuccess fetch writeOk outputDir products (pidOf (products.getD j [])) →
      (download_product_images fetch writeOk products outputDir).getD j [] =
        setAssoc (products.getD j []) "local_image_paths"
          (.arr ((urlsOf (products.getD j [])).map fun u =>
            .str ((resPath (buildResults (dlPath fetch writeOk outputDir)
              (tasks products)) (pidOf (products.getD j [])) u).getD "")))) ∧
    (¬ PidSuccess fetch writeOk outputDir products (pidOf (products.getD j [])) →
      (download_product_images fetch writeOk products outputDir).getD j [] =
        products.getD j []) ∧
    (∀ u : JValue,
      ((resPath (buildResults (dlPath fetch writeOk outputDir) (tasks products))
        (pidOf (products.getD j [])) u).getD "" = "") ↔
      ¬ UrlSuccess fetch writeOk outputDir products (pidOf (products.getD j [])) u) := by
  have hne : products ≠ [] := fun h => by subst h; simp at hj
  have hmap : download_product_images fetch writeOk products outputDir =
      products.map (updateProduct (buildResults (dlPath fetch writeOk outputDir)
        (tasks products))) := by
    unfold download_product_images
    rw [if_neg (by simp [hne])]
  have hpid_iff : ((getAssoc (buildResults (dlPath fetch writeOk outputDir)
      (tasks products)) (pidOf (products.getD j []))).isSome = true) ↔
      PidSuccess fetch writeOk outputDir products (pidOf (products.getD j [])) := by
    unfold buildResults
    rw [isSome_getAssoc_foldl]
    constructor
    · intro h
      rcases h with hex | hbase
      · exact (exists_pidHit_iff _ _ _ _ _).mp hex
      · exact absurd hbase (by simp [getAssoc])
    · intro h
      exact Or.inl ((exists_pidHit_iff _ _ _ _ _).mpr h)
  refine ⟨by rw [hmap]; simp, ?_, ?_, ?_⟩
  · intro hsucc
    rw [hmap, getD_map_of_lt products _ j hj []]
    have hsome := hpid_iff.mpr hsucc
    obtain ⟨inner, hinner⟩ := Option.isSome_iff_exists.mp hsome
    have hres : ∀ u : JValue, resPath (buildResults (dlPath fetch writeOk outputDir)
        (tasks products)) (pidOf (products.getD j [])) u = getAssoc inner u := by
      intro u
      unfold resPath
      rw [hinner]
    unfold updateProduct
    rw [hinner]
    simp only [hres]
  · intro hfail
    rw [hmap, getD_map_of_lt products _ j hj []]
    have hnone : getAssoc (buildResults (dlPath fetch writeOk outputDir)
        (tasks products)) (pidOf (products.getD j [])) = none := by
      cases h : getAssoc (buildResults (dlPath fetch writeOk outputDir)
          (tasks products)) (pidOf (products.getD j [])) with
      | none => rfl
      | some inner => exact absurd (hpid_iff.mp (by rw [h]; rfl)) hfail
    unfold updateProduct
    rw [hnone]
  · intro u
    rw [resPath_buildResults_empty_iff]
    exact not_congr (exists_taskHit_iff _ _ _ _ _ _)

/-- Witness for C1 at a concrete batch (all fetches succeed, the second
URL being empty and skipped). -/
theorem C1_download_images_amended_witness :
    (download_product_images (fun _ => true) (fun _ => true) tProducts
        "out").length = tProducts.length ∧
    (PidSuccess (fun _ => true) (fun _ => true) "out" tProducts
        (pidOf (tProducts.getD 0 [])) →
      (download_product_images (fun _ => true) (fun _ => true) tProducts
          "out").getD 0 [] =
        setAssoc (tProducts.getD 0 []) "local_image_paths"
          (.arr ((urlsOf (tProducts.getD 0 [])).map fun u =>
            .str ((resPath (buildResults (dlPath (fun _ => true) (fun _ => true)
              "out") (tasks tProducts)) (pidOf (tProducts.getD 0 [])) u).getD "")))) ∧
    (¬ PidSuccess (fun _ => true) (fun _ => true) "out" tProducts
        (pidOf (tProducts.getD 0 [])) →
      (download_product_images (fun _ => true) (fun _ => true) tProducts
          "out").getD 0 [] = tProducts.getD 0 []) ∧
    (∀ u : JValue,
      ((resPath (buildResults (dlPath (fun _ => true) (fun _ => true) "out")
        (tasks tProducts)) (pidOf (tProducts.getD 0 [])) u).getD "" = "") ↔
      ¬ UrlSuccess (fun _ => true) (fun _ => true) "out" tProducts
        (pidOf (tProducts.getD 0 [])) u) :=
  C1_download_images_amended (fun _ => true) (fun _ => true) "out" tProducts 0
    (by decide)

/-- C8: the fetch operation returns the same number of records in the same
order, and for each record every field other than `local_image_paths`
(including `image_urls` and `product_id`) reads the same after the
operation as before. -/
theorem C8_download_images_frame (fetch writeOk : String → Bool)
    (products : List Record) (outputDir : String) (j : Nat)
    (hj : j < products.length) (key : String)
    (hkey : key ≠ "local_image_paths") :
    (download_product_images fetch writeOk products outputDir).length =
      products.length ∧
    getAssoc ((download_product_images fetch writeOk products
      outputDir).getD j []) key = getAssoc (products.getD j []) key := by
  have hne : products ≠ [] := fun h => by subst h; simp at hj
  have hmap : download_product_images fetch writeOk products outputDir =
      products.map (updateProduct (buildResults (dlPath fetch writeOk outputDir)
        (tasks products))) := by
    unfold download_product_images
    rw [if_neg (by simp [hne])]
  refine ⟨by rw [hmap]; simp, ?_⟩
  rw [hmap, getD_map_of_lt products _ j hj []]
  unfold updateProduct
  cases getAssoc (buildResults (dlPath fetch writeOk outputDir) (tasks products))
      (pidOf (products.getD j [])) with
  | none => rfl
  | some inner => exact getAssoc_setAssoc_ne _ _ _ _ hkey

/-- Witness for C8: the concrete batch keeps `product_id` and
`image_urls` intact. -/
theorem C8_download_images_frame_witness :
    (download_product_images (fun _ => true) (fun _ => true) tProducts
        "out").length = tProducts.length ∧
    getAssoc ((download_product_images (fun _ => true) (fun _ => true) tProducts
      "out").getD 0 []) "image_urls" =
      getAssoc (tProducts.getD 0 []) "image_urls" :=
  C8_download_images_frame (fun _ => true) (fun _ => true) tProducts "out" 0
    (by decide) "image_urls" (by decide)

